import Mathlib

/-!
Verification of the credit-card recommendation core
(`src/normalization.py`, `src/rule_engine.py`, `src/valuation.py`,
`src/engine.py`, `src/config.py`, `src/app.py`) against its
natural-language specification.

The Python code is shallowly embedded: Python `float` values are modelled
as exact rationals (`ℚ`), Python lists as `List`, `Optional[T]` as
`Option T`, and functions that can raise `ZeroDivisionError` return
`Option`.  Python dicts that the code iterates over are modelled as
association lists in insertion order (CPython dicts preserve insertion
order).  The in-place mutation that `engine.find_best_cards_for_query`
performs on the module-level `KNOWN_MERCHANTS` table (via
`resolved_categories.extend(...)` aliasing a table entry's list) is made
explicit by threading the table through the function and returning the
updated table alongside the recommendation.
-/

/- ## Python string primitives

Models of the CPython string operations the normalizer uses, restricted to
the ASCII inputs occurring in the tables and queries. -/

/-- Model of Python `str.lower()` (ASCII case mapping). -/
def pyLower (s : String) : String := ⟨s.data.map Char.toLower⟩

/-- Model of Python `str.upper()` (ASCII case mapping). -/
def pyUpper (s : String) : String := ⟨s.data.map Char.toUpper⟩

/-- Model of Python `str.strip()`: remove leading and trailing whitespace. -/
def pyStrip (s : String) : String :=
  ⟨((s.data.dropWhile Char.isWhitespace).reverse.dropWhile Char.isWhitespace).reverse⟩

/-- Check whether `pat` occurs at the beginning of `hay` (character lists). -/
def starts_with_chars : List Char → List Char → Bool
  | _, [] => true
  | [], _ :: _ => false
  | a :: as, b :: bs => a == b && starts_with_chars as bs

/-- Check whether `pat` occurs contiguously anywhere inside `hay`. -/
def has_sub_chars (hay pat : List Char) : Bool :=
  match hay with
  | [] => pat.isEmpty
  | _ :: t => starts_with_chars hay pat || has_sub_chars t pat

/-- Model of Python `pat in hay` for strings: substring containment. -/
def strIn (pat hay : String) : Bool := has_sub_chars hay.data pat.data

/- ## The suffix-noise regular expression

`normalization.resolve_merchant_query` cleans the query with
`re.sub(r'\s+(store|shop|market|supercenter|super market|grocery|gas station|station|restaurant|cafe|pharmacy|com|\.com)\b', '', query_lower)`.
All alternatives start with a non-space character, so the greedy `\s+` is
forced to consume a maximal whitespace run; the alternatives are tried in
pattern order and `\b` requires a non-word character (or the end) after the
match.  `re.sub` replaces every non-overlapping leftmost match. -/

/-- Alternatives of the noise regular expression, in pattern order. -/
def noise_tokens : List (List Char) :=
  ["store", "shop", "market", "supercenter", "super market", "grocery",
   "gas station", "station", "restaurant", "cafe", "pharmacy", "com",
   ".com"].map String.data

/-- Word characters for the `\b` assertion (ASCII `\w`). -/
def is_word_char (c : Char) : Bool := c.isAlphanum || c == '_'

/-- The `\b` assertion holds after a token ending in a word character
exactly when the remaining text starts with a non-word character or is
empty. -/
def word_boundary_after : List Char → Bool
  | [] => true
  | c :: _ => !(is_word_char c)

/-- If a match of the noise pattern starts exactly at the head of `l`,
return its length (whitespace run plus the matched alternative). -/
def noise_match_len (l : List Char) : Option Nat :=
  let ws := l.takeWhile Char.isWhitespace
  if ws.isEmpty then none
  else
    let rest := l.dropWhile Char.isWhitespace
    match noise_tokens.find? (fun t =>
        starts_with_chars rest t && word_boundary_after (rest.drop t.length)) with
    | some t => some (ws.length + t.length)
    | none => none

/-- Left-to-right scan of `re.sub(pattern, '', text)`: at each position,
drop a match if one starts there, otherwise keep the character.  A match
always consumes at least its leading whitespace character, so dropping
`n` characters from `c :: cs` is dropping `n - 1` from `cs`.  Structural
recursion on a fuel counter (every step consumes at least one character,
so fuel equal to the length suffices and the zero-fuel case is
unreachable). -/
def clean_scan_go : Nat → List Char → List Char
  | 0, _ => []
  | _ + 1, [] => []
  | fuel + 1, c :: cs =>
    match noise_match_len (c :: cs) with
    | some n => clean_scan_go fuel (cs.drop (n - 1))
    | none => c :: clean_scan_go fuel cs

/-- The scan with its fuel initialized to the text length. -/
def clean_scan (l : List Char) : List Char := clean_scan_go l.length l

/-- The full noise-removal substitution on a string. -/
def clean_noise (s : String) : String := ⟨clean_scan s.data⟩

/- ## Data model (`src/models.py`)

The `datetime` validity window of `EarningRule` and the free-form
`metadata` dict of `CardProduct` are never read by the core pipeline and
are omitted. -/

/-- Types of reward structures (`models.RewardType`). -/
inductive RewardType where
  | cashback_percent
  | points_per_dollar
  | miles_per_dollar
  | hybrid
deriving DecidableEq

/-- Credit card networks (`models.CardNetwork`). -/
inductive CardNetwork where
  | visa
  | mastercard
  | amex
  | discover
deriving DecidableEq

/-- A credit card issuer (`models.CardIssuer`). -/
structure CardIssuer where
  name : String
  website_url : String
  support_contact : Option String := none
deriving DecidableEq

/-- A reward program (`models.RewardProgram`). -/
structure RewardProgram where
  id : String
  name : String
  base_point_value_cents : ℚ
  notes : Option String := none
deriving DecidableEq

/-- A spending cap on rewards (`models.Cap`). -/
structure Cap where
  amount_dollars : ℚ
  period : String
  description : Option String := none
deriving DecidableEq

/-- A rule for earning rewards on a card (`models.EarningRule`). -/
structure EarningRule where
  card_id : String
  description : String
  merchant_categories : List String := []
  mcc_list : List String := []
  merchant_names : List String := []
  multiplier : ℚ := 1
  reward_type : RewardType := .cashback_percent
  caps : List Cap := []
  stacking_rules : Option String := none
  is_rotating : Bool := false
  is_intro_offer_only : Bool := false
deriving DecidableEq

/-- A credit card product (`models.CardProduct`). -/
structure CardProduct where
  id : String
  issuer : CardIssuer
  name : String
  network : CardNetwork
  type : RewardType
  annual_fee : ℚ
  foreign_transaction_fee : ℚ
  reward_program : Option RewardProgram := none
  is_business_card : Bool := false
  official_url : Option String := none
  terms_url : Option String := none
deriving DecidableEq

/-- Mapping from a merchant to normalized categories and MCC
(`models.MerchantCategoryMapping`). -/
structure MerchantCategoryMapping where
  merchant_name : String
  mcc : Option String := none
  normalized_categories : List String := []
  aliases : List String := []
deriving DecidableEq

/-- The cautionary notes attached to a recommendation.  The source emits
these as formatted strings (with rates rounded to two decimals for
display); each constructor carries the data interpolated into the
corresponding f-string of `valuation.apply_cap_penalty` or
`engine.find_best_cards_for_query`. -/
inductive Note where
  | cap_blended (cap_amount : ℚ) (period : String) (blended_rate : ℚ)
  | cap_exceeded (cap_amount : ℚ) (period : String) (blended_rate : ℚ)
  | cap_within_limit (cap_amount : ℚ) (period : String)
  | rotating_category
  | intro_offer
  | stacking (text : String)
deriving DecidableEq

/-- Structured stand-in for the per-candidate explanation sentence built
in `engine.find_best_cards_for_query` (card name, reward-type phrase with
the rule multiplier, adjusted rate rendered as a percentage, and the rule
description). -/
structure ExplanationParts where
  card_name : String
  reward_multiplier : ℚ
  reward_type : RewardType
  effective_percent : ℚ
  rule_description : String
deriving DecidableEq

/-- Computed score for a card recommendation (`models.CardScore`). -/
structure CardScore where
  card : CardProduct
  effective_rate_cents_per_dollar : ℚ
  matching_rule : EarningRule
  explanation : ExplanationParts
  notes : List Note := []
deriving DecidableEq

/-- Structured stand-in for the overall explanation sentence of
`engine.find_best_cards_for_query`: either the fallback text for an empty
candidate list, or the best card with its rate and an optional runner-up. -/
inductive OverallExplanation where
  | no_specific_rewards (query : String)
  | best_value (query : String) (resolved_categories : List String)
      (best_card : String) (best_rate : ℚ) (runner_up : Option (String × ℚ))
deriving DecidableEq

/-- Final recommendation result (`models.ComputedRecommendation`). -/
structure ComputedRecommendation where
  merchant_query : String
  resolved_categories : List String
  candidate_cards : List CardScore
  explanation : OverallExplanation
deriving DecidableEq

/- ## Configuration (`src/config.py`) -/

/-- Point/mile valuation assumptions (`config.POINT_VALUES`), in insertion
order.  The comments in the source call the values "cents per point/mile",
but the stored magnitudes (e.g. `0.017`) are dollars per point. -/
def POINT_VALUES : List (String × ℚ) :=
  [("CHASE_UR", 0.017),
   ("AMEX_MR", 0.017),
   ("CITI_TY", 0.015),
   ("CAPITAL_ONE_MILES", 0.016),
   ("DISCOVER_CASHBACK", 0.01),
   ("BOA_POINTS", 0.01),
   ("USBANK_POINTS", 0.012),
   ("WELLS_FARGO_POINTS", 0.01),
   ("BARCLAYS_POINTS", 0.01),
   ("AMERICAN_AIRLINES_MILES", 0.014),
   ("DEFAULT", 0.01)]

/-- Category normalization patterns (`config.CATEGORY_SYNONYMS`), in
insertion order. -/
def CATEGORY_SYNONYMS : List (String × List String) :=
  [("groceries",
    ["grocery", "supermarket", "supermarkets", "grocery store", "grocery stores",
     "food store", "food stores", "market", "markets", "food market",
     "grocery shopping", "food shopping", "supermarket shopping"]),
   ("gas",
    ["gas station", "gas stations", "fuel", "gasoline", "petrol", "petrol station",
     "filling station", "service station", "fuel station", "gas pump"]),
   ("restaurants",
    ["restaurant", "dining", "dine", "food", "fast food", "fast-food", "fastfood",
     "cafe", "café", "coffee shop", "coffeehouse", "bistro", "eatery", "diner",
     "casual dining", "fine dining", "takeout", "take-out", "delivery"]),
   ("travel",
    ["travel", "trip", "trips", "vacation", "vacations", "tourism", "tourist",
     "airline", "airlines", "flight", "flights", "airport", "hotel", "hotels",
     "lodging", "accommodation", "resort", "resorts", "cruise", "cruises",
     "car rental", "car rentals", "rental car", "train", "trains", "railway"]),
   ("online_shopping",
    ["online", "e-commerce", "internet shopping", "online store", "online stores",
     "web shopping", "internet purchase", "online purchase", "ecommerce"]),
   ("department_store",
    ["department store", "department stores", "retail store", "retail stores"]),
   ("wholesale",
    ["wholesale club", "warehouse", "warehouse club", "warehouse store",
     "bulk store", "membership warehouse"]),
   ("streaming",
    ["streaming", "streaming service", "streaming services", "netflix", "spotify",
     "hulu", "disney+", "disney plus", "apple music", "youtube premium",
     "prime video", "hbo", "hbo max", "paramount+", "paramount plus"]),
   ("utilities",
    ["utility", "utilities", "phone", "internet", "cable", "electricity", "electric",
     "water", "gas utility", "internet service", "phone service", "cable service",
     "cell phone", "mobile phone", "wireless", "internet provider"]),
   ("pharmacy",
    ["pharmacy", "pharmacies", "drugstore", "drug stores", "cvs", "walgreens",
     "rite aid", "prescription", "prescriptions", "medication", "medications"]),
   ("entertainment",
    ["entertainment", "movies", "movie", "cinema", "theater", "theatre",
     "concert", "concerts", "sports", "sporting event", "sporting events",
     "amusement park", "theme park", "bowling", "golf", "sports bar"]),
   ("shopping",
    ["shopping", "retail", "store", "stores", "merchant", "merchants",
     "purchase", "purchases", "buy", "buying"]),
   ("transit",
    ["transit", "public transit", "public transportation", "metro", "subway",
     "bus", "buses", "uber", "lyft", "rideshare", "ride share", "taxi", "taxis"])]

/- ## Valuation engine (`src/valuation.py`) -/

/-- Lookup in `POINT_VALUES` with a default, modelling
`POINT_VALUES.get(key, default)`. -/
def pv_lookup (key : String) (default : ℚ) : ℚ :=
  match POINT_VALUES.find? (fun kv => kv.1 == key) with
  | some kv => kv.2
  | none => default

/-- Point value for a reward program (`valuation.get_point_value`).  For
`none` the source indexes `POINT_VALUES["DEFAULT"]`; that key is present
in the constant, so the `KeyError` default `0` below is unreachable. -/
def get_point_value : Option RewardProgram → ℚ
  | none => pv_lookup "DEFAULT" 0
  | some p => pv_lookup (pyUpper p.id) p.base_point_value_cents

/-- Effective reward rate of a rule (`valuation.compute_effective_rate`).
The source's trailing default fallback is unreachable because
`RewardType` has exactly the four branched-on values. -/
def compute_effective_rate (earning_rule : EarningRule)
    (reward_program : Option RewardProgram) : ℚ :=
  match earning_rule.reward_type with
  | .cashback_percent => earning_rule.multiplier
  | .points_per_dollar => earning_rule.multiplier * get_point_value reward_program
  | .miles_per_dollar => earning_rule.multiplier * get_point_value reward_program
  | .hybrid => earning_rule.multiplier * get_point_value reward_program

/-- Adjust the effective rate for spending caps
(`valuation.apply_cap_penalty`).  Returns `none` exactly where the Python
raises `ZeroDivisionError`: in the zero-spend branch when the first cap
amount is zero.  The exceeded branch divides by `spending_amount`, which
is nonzero there because the first branch already handled zero. -/
def apply_cap_penalty (effective_rate : ℚ) (caps : List Cap)
    (spending_amount : ℚ) (base_rate : ℚ) : Option (ℚ × List Note) :=
  match caps with
  | [] => some (effective_rate, [])
  | cap :: _ =>
    let cap_amount := cap.amount_dollars
    if spending_amount = 0 then
      let assumed_spend := cap_amount * 2
      if assumed_spend = 0 then none
      else
        let high_rate_earnings := cap_amount * effective_rate
        let remaining_spend := assumed_spend - cap_amount
        let base_rate_earnings := remaining_spend * base_rate
        let blended_rate := (high_rate_earnings + base_rate_earnings) / assumed_spend
        some (blended_rate, [Note.cap_blended cap_amount cap.period blended_rate])
    else if cap_amount < spending_amount then
      let high_rate_earnings := cap_amount * effective_rate
      let remaining_spend := spending_amount - cap_amount
      let base_rate_earnings := remaining_spend * base_rate
      let blended_rate := (high_rate_earnings + base_rate_earnings) / spending_amount
      some (blended_rate, [Note.cap_exceeded cap_amount cap.period blended_rate])
    else
      some (effective_rate, [Note.cap_within_limit cap_amount cap.period])

/- ## Known-merchant table (`src/normalization.py`, `KNOWN_MERCHANTS`)

An association list in the dict's insertion (declaration) order; each
value is `⟨merchant_name, mcc, normalized_categories, aliases⟩`. -/

/-- The merchant table type: canonical key paired with its mapping. -/
abbrev MerchantTable := List (String × MerchantCategoryMapping)

/-- The module-level known-merchant table, in declaration order. -/
def KNOWN_MERCHANTS : MerchantTable :=
  [("walmart", ⟨"Walmart", some "5331", ["general_merchandise", "groceries"],
      ["walmart supercenter", "walmart.com", "walmart store", "walmart neighborhood market"]⟩),
   ("target", ⟨"Target", some "5331", ["general_merchandise", "groceries"],
      ["target.com", "target store"]⟩),
   ("kroger", ⟨"Kroger", some "5411", ["groceries"],
      ["kroger grocery", "kroger.com", "kroger store", "ralphs", "fred meyer", "food 4 less", "king soopers"]⟩),
   ("whole foods", ⟨"Whole Foods", some "5411", ["groceries"],
      ["whole foods market", "wholefoods", "whole foods"]⟩),
   ("safeway", ⟨"Safeway", some "5411", ["groceries"],
      ["safeway.com", "safeway store", "vons", "pavilions", "tom thumb"]⟩),
   ("publix", ⟨"Publix", some "5411", ["groceries"],
      ["publix.com", "publix supermarket"]⟩),
   ("wegmans", ⟨"Wegmans", some "5411", ["groceries"],
      ["wegmans.com", "wegmans food market"]⟩),
   ("h-e-b", ⟨"H-E-B", some "5411", ["groceries"],
      ["heb", "h.e.b", "heb.com"]⟩),
   ("albertsons", ⟨"Albertsons", some "5411", ["groceries"],
      ["albertsons.com", "acme", "jewel osco", "shaws", "star market"]⟩),
   ("stop & shop", ⟨"Stop & Shop", some "5411", ["groceries"],
      ["stop and shop", "stopandshop", "stopandshop.com"]⟩),
   ("giant", ⟨"Giant", some "5411", ["groceries"],
      ["giant food", "giant.com", "giant eagle", "giant martin"]⟩),
   ("food lion", ⟨"Food Lion", some "5411", ["groceries"],
      ["foodlion.com", "food lion store"]⟩),
   ("meijer", ⟨"Meijer", some "5411", ["groceries", "general_merchandise"],
      ["meijer.com", "meijer store"]⟩),
   ("costco", ⟨"Costco", some "5300", ["wholesale", "groceries"],
      ["costco wholesale", "costco.com"]⟩),
   ("sam\x27s club", ⟨"Sam\x27s Club", some "5300", ["wholesale", "groceries"],
      ["sams club", "samsclub", "samsclub.com"]⟩),
   ("bj\x27s", ⟨"BJ\x27s", some "5300", ["wholesale", "groceries"],
      ["bjs", "bjs wholesale", "bjs.com"]⟩),
   ("amazon", ⟨"Amazon", some "5999", ["online_shopping", "general_merchandise"],
      ["amazon.com", "amzn", "amazon prime"]⟩),
   ("macy\x27s", ⟨"Macy\x27s", some "5311", ["department_store"],
      ["macys", "macy", "macy\x27s", "macys.com"]⟩),
   ("best buy", ⟨"Best Buy", some "5732", ["electronics", "shopping"],
      ["bestbuy", "bestbuy.com", "best buy store"]⟩),
   ("home depot", ⟨"Home Depot", some "5200", ["home_improvement", "shopping"],
      ["homedepot", "homedepot.com", "the home depot"]⟩),
   ("lowe\x27s", ⟨"Lowe\x27s", some "5200", ["home_improvement", "shopping"],
      ["lowes", "lowes.com", "lowes store"]⟩),
   ("nordstrom", ⟨"Nordstrom", some "5311", ["department_store"],
      ["nordstrom.com", "nordstrom rack"]⟩),
   ("tj maxx", ⟨"TJ Maxx", some "5311", ["department_store"],
      ["tjmaxx", "tj maxx", "tjmaxx.com", "marshalls", "homegoods"]⟩),
   ("shell", ⟨"Shell", some "5541", ["gas"],
      ["shell gas", "shell station", "shell.com"]⟩),
   ("chevron", ⟨"Chevron", some "5541", ["gas"],
      ["chevron gas", "chevron station", "chevron.com"]⟩),
   ("bp", ⟨"BP", some "5541", ["gas"],
      ["bp gas", "bp station", "british petroleum", "bp.com"]⟩),
   ("exxon", ⟨"Exxon", some "5541", ["gas"],
      ["exxon mobil", "exxonmobil", "exxon station", "exxon.com"]⟩),
   ("mobil", ⟨"Mobil", some "5541", ["gas"],
      ["mobil gas", "mobil station", "mobil.com"]⟩),
   ("speedway", ⟨"Speedway", some "5541", ["gas"],
      ["speedway gas", "speedway station"]⟩),
   ("7-eleven", ⟨"7-Eleven", some "5541", ["gas", "convenience"],
      ["7eleven", "7-11", "seven eleven"]⟩),
   ("mcdonald\x27s", ⟨"McDonald\x27s", some "5814", ["restaurants", "fast food"],
      ["mcdonalds", "mcd", "mcdonald", "mcdonalds.com"]⟩),
   ("starbucks", ⟨"Starbucks", some "5814", ["restaurants", "cafe"],
      ["starbucks.com", "starbucks coffee"]⟩),
   ("chipotle", ⟨"Chipotle", some "5814", ["restaurants", "fast food"],
      ["chipotle.com", "chipotle mexican grill"]⟩),
   ("subway", ⟨"Subway", some "5814", ["restaurants", "fast food"],
      ["subway.com", "subway restaurant"]⟩),
   ("pizza hut", ⟨"Pizza Hut", some "5812", ["restaurants", "fast food"],
      ["pizzahut", "pizza hut", "pizzahut.com"]⟩),
   ("domino\x27s", ⟨"Domino\x27s", some "5812", ["restaurants", "fast food"],
      ["dominos", "domino\x27s pizza", "dominos.com"]⟩),
   ("delta", ⟨"Delta Airlines", some "4511", ["travel", "airline"],
      ["delta air lines", "delta.com", "delta air"]⟩),
   ("united", ⟨"United Airlines", some "4511", ["travel", "airline"],
      ["united airlines", "united.com", "united air"]⟩),
   ("american airlines", ⟨"American Airlines", some "4511", ["travel", "airline"],
      ["aa.com", "american", "american air", "americanairlines"]⟩),
   ("southwest", ⟨"Southwest Airlines", some "4511", ["travel", "airline"],
      ["southwest.com", "southwest air", "southwest airlines"]⟩),
   ("jetblue", ⟨"JetBlue", some "4511", ["travel", "airline"],
      ["jetblue.com", "jet blue", "jetblue airways"]⟩),
   ("alaska airlines", ⟨"Alaska Airlines", some "4511", ["travel", "airline"],
      ["alaskaair.com", "alaska air", "alaskaairlines"]⟩),
   ("uber", ⟨"Uber", some "4121", ["transit", "travel"],
      ["uber.com", "uber ride", "uber eats"]⟩),
   ("lyft", ⟨"Lyft", some "4121", ["transit", "travel"],
      ["lyft.com", "lyft ride"]⟩),
   ("netflix", ⟨"Netflix", some "4899", ["streaming", "entertainment"],
      ["netflix.com"]⟩),
   ("spotify", ⟨"Spotify", some "4899", ["streaming", "entertainment"],
      ["spotify.com"]⟩),
   ("hulu", ⟨"Hulu", some "4899", ["streaming", "entertainment"],
      ["hulu.com"]⟩),
   ("disney+", ⟨"Disney+", some "4899", ["streaming", "entertainment"],
      ["disney plus", "disneyplus", "disneyplus.com"]⟩),
   ("cvs", ⟨"CVS", some "5912", ["pharmacy", "groceries"],
      ["cvs pharmacy", "cvs.com", "cvs store"]⟩),
   ("walgreens", ⟨"Walgreens", some "5912", ["pharmacy", "groceries"],
      ["walgreens pharmacy", "walgreens.com", "walgreens store"]⟩),
   ("rite aid", ⟨"Rite Aid", some "5912", ["pharmacy", "groceries"],
      ["riteaid", "rite aid pharmacy", "riteaid.com"]⟩)]

/-- MCC to category mappings (`normalization.MCC_TO_CATEGORY`), in
insertion order. -/
def MCC_TO_CATEGORY : List (String × List String) :=
  [("5411", ["groceries"]),
   ("5422", ["groceries"]),
   ("5441", ["groceries"]),
   ("5451", ["groceries"]),
   ("5462", ["groceries"]),
   ("5499", ["groceries"]),
   ("5541", ["gas"]),
   ("5542", ["gas"]),
   ("5812", ["restaurants"]),
   ("5814", ["restaurants"]),
   ("5811", ["restaurants"]),
   ("5311", ["department_store"]),
   ("5331", ["general_merchandise"]),
   ("5300", ["wholesale"]),
   ("5732", ["electronics", "shopping"]),
   ("5200", ["home_improvement", "shopping"]),
   ("4511", ["travel", "airline"]),
   ("7011", ["travel", "hotel"]),
   ("4111", ["transit"]),
   ("4121", ["transit"]),
   ("4112", ["transit"]),
   ("4119", ["transit"]),
   ("7512", ["travel"]),
   ("7513", ["travel"]),
   ("7519", ["travel"]),
   ("5999", ["online_shopping"]),
   ("5970", ["shopping"]),
   ("5971", ["shopping"]),
   ("5972", ["shopping"]),
   ("7832", ["entertainment"]),
   ("7911", ["entertainment"]),
   ("7922", ["entertainment"]),
   ("7929", ["entertainment"]),
   ("7932", ["entertainment"]),
   ("7933", ["entertainment"]),
   ("7941", ["entertainment"]),
   ("4899", ["streaming", "utilities"]),
   ("4814", ["utilities"]),
   ("4816", ["utilities"]),
   ("5912", ["pharmacy"]),
   ("5995", ["shopping"]),
   ("5998", ["shopping"])]

/- ## Query normalizer (`src/normalization.py`) -/

/-- Normalize a raw category string (`normalization.normalize_category_name`):
first pass checks exact synonym membership or the canonical key itself,
second pass checks substring containment of any synonym, fallback
replaces spaces with underscores. -/
def normalize_category_name (category : String) : String :=
  let category_lower := pyStrip (pyLower category)
  match CATEGORY_SYNONYMS.find? (fun kv =>
      kv.2.contains category_lower || kv.1 == category_lower) with
  | some kv => kv.1
  | none =>
    match CATEGORY_SYNONYMS.find? (fun kv =>
        kv.2.any (fun syn => strIn syn category_lower)) with
    | some kv => kv.1
    | none => ⟨category_lower.data.map (fun c => if c == ' ' then '_' else c)⟩

/-- Categories for an MCC code (`normalization.get_categories_for_mcc`),
empty when the code is unknown. -/
def get_categories_for_mcc (mcc : String) : List String :=
  match MCC_TO_CATEGORY.find? (fun kv => kv.1 == mcc) with
  | some kv => kv.2
  | none => []

/-- Nonempty intersection of category lists
(`normalization.match_categories`, `bool(rule_set & query_set)`). -/
def match_categories (rule_categories query_categories : List String) : Bool :=
  rule_categories.any (fun c => query_categories.contains c)

/-- One `for key, mapping in KNOWN_MERCHANTS.items():` loop: the first
entry, in table-declared order, satisfying the predicate. -/
def scan_table (p : String × MerchantCategoryMapping → Bool) :
    MerchantTable → Option (String × MerchantCategoryMapping)
  | [] => none
  | e :: rest => if p e then some e else scan_table p rest

/-- Criterion of the first loop of `resolve_merchant_query`: exact match
of the key against the lowered or cleaned query. -/
def exact_key_pred (ql qc : String) (e : String × MerchantCategoryMapping) : Bool :=
  e.1 == ql || e.1 == qc

/-- Criterion of the second loop: the key occurs inside the lowered or
cleaned query. -/
def key_sub_pred (ql qc : String) (e : String × MerchantCategoryMapping) : Bool :=
  strIn e.1 ql || strIn e.1 qc

/-- Criterion of the third loop: the lowered or cleaned query is exactly
one of the entry's aliases. -/
def alias_exact_pred (ql qc : String) (e : String × MerchantCategoryMapping) : Bool :=
  e.2.aliases.contains ql || e.2.aliases.contains qc

/-- Criterion of the fourth loop: some alias occurs inside the lowered or
cleaned query. -/
def alias_sub_pred (ql qc : String) (e : String × MerchantCategoryMapping) : Bool :=
  e.2.aliases.any (fun a => strIn a ql || strIn a qc)

/-- The four merchant-identification loops of
`normalization.resolve_merchant_query`, in source order: each loop scans
the whole table before the next criterion is tried. -/
def find_merchant (table : MerchantTable) (ql qc : String) :
    Option (String × MerchantCategoryMapping) :=
  match scan_table (exact_key_pred ql qc) table with
  | some e => some e
  | none =>
    match scan_table (key_sub_pred ql qc) table with
    | some e => some e
    | none =>
      match scan_table (alias_exact_pred ql qc) table with
      | some e => some e
      | none => scan_table (alias_sub_pred ql qc) table

/-- Resolve a user query (`normalization.resolve_merchant_query`).  The
first component is the table key of the returned mapping when the query
hit the known-merchant table (the Python function returns the table's
mapping object itself, so the caller aliases module-level state); it is
`none` for the synthetic category mapping.  The source's known-category
test and its default branch construct identical mappings and are merged
here. -/
def resolve_merchant_query (table : MerchantTable) (query : String) :
    Option String × MerchantCategoryMapping :=
  let query_lower := pyStrip (pyLower query)
  let query_clean := pyStrip (clean_noise query_lower)
  match find_merchant table query_lower query_clean with
  | some e => (some e.1, e.2)
  | none =>
    let normalized := normalize_category_name query_lower
    (none, ⟨query, none, [normalized], []⟩)

/- ## Recommendation engine (`src/engine.py`) -/

/-- Truthiness of an optional string in Python (`None` and `""` are
falsy). -/
def opt_str_truthy : Option String → Bool
  | some s => !s.isEmpty
  | none => false

/-- The Python test `mcc and mcc in lst`. -/
def mcc_truthy_mem (mcc : Option String) (lst : List String) : Bool :=
  match mcc with
  | some m => !m.isEmpty && lst.contains m
  | none => false

/-- Update of a single table entry: replace its `normalized_categories`
when its key is `k`. -/
def upd_entry (k : String) (cats : List String)
    (e : String × MerchantCategoryMapping) : String × MerchantCategoryMapping :=
  if e.1 == k then (e.1, { e.2 with normalized_categories := cats }) else e

/-- Replace the `normalized_categories` of the entry keyed `k`, modelling
the in-place `list.extend` on the aliased table mapping. -/
def update_cats (table : MerchantTable) (k : String) (cats : List String) :
    MerchantTable :=
  table.map (upd_entry k cats)

/-- First-occurrence deduplication with an accumulator of already-seen
elements. -/
def dedup_first_aux {α : Type} [DecidableEq α] (seen : List α) : List α → List α
  | [] => []
  | x :: xs =>
    if x ∈ seen then dedup_first_aux seen xs
    else x :: dedup_first_aux (x :: seen) xs

/-- Model of Python `list(set(xs))`: the set of elements of `xs` in a
deterministic canonical order (first occurrence).  CPython's iteration
order over a small-string set is an unspecified function of the element
set; any canonical choice is faithful for the properties proved here. -/
def dedup_first {α : Type} [DecidableEq α] (l : List α) : List α :=
  dedup_first_aux [] l

/-- Lookup in the dict comprehension `{card.id: card for card in
all_cards}`: with duplicate ids the last card wins. -/
def card_dict_lookup (all_cards : List CardProduct) (cid : String) :
    Option CardProduct :=
  all_cards.reverse.find? (fun c => c.id == cid)

/-- Stable insertion for a descending sort by `key`: the new element goes
before the first element with a strictly smaller key, so equal keys keep
their original relative order. -/
def insert_desc {α β : Type} [LinearOrder β] (key : α → β) (x : α) :
    List α → List α
  | [] => [x]
  | y :: ys => if key x < key y then y :: insert_desc key x ys else x :: y :: ys

/-- Stable descending sort by `key`, modelling Python's stable
`list.sort(key=..., reverse=True)` / `sorted(..., reverse=True)`. -/
def sort_desc {α β : Type} [LinearOrder β] (key : α → β) : List α → List α
  | [] => []
  | x :: xs => insert_desc key x (sort_desc key xs)

/-- The candidate-collection loop of `engine.find_best_cards_for_query`:
one pass over the rule catalog in order, skipping dangling card
references, business cards, and non-matching rules; `none` propagates the
`ZeroDivisionError` of `apply_cap_penalty`. -/
def collect_candidates (mm : MerchantCategoryMapping)
    (resolved_categories : List String) (all_cards : List CardProduct) :
    List EarningRule → Option (List CardScore)
  | [] => some []
  | rule :: rest =>
    match card_dict_lookup all_cards rule.card_id with
    | none => collect_candidates mm resolved_categories all_cards rest
    | some card =>
      if card.is_business_card then
        collect_candidates mm resolved_categories all_cards rest
      else
        let category_match := match_categories rule.merchant_categories resolved_categories
        let mcc_match := mcc_truthy_mem mm.mcc rule.mcc_list
        let merchant_match := !mm.merchant_name.isEmpty &&
          rule.merchant_names.any (fun merchant =>
            strIn (pyLower merchant) (pyLower mm.merchant_name) ||
            strIn (pyLower mm.merchant_name) (pyLower merchant))
        if !(category_match || mcc_match || merchant_match) then
          collect_candidates mm resolved_categories all_cards rest
        else
          let effective_rate := compute_effective_rate rule card.reward_program
          -- base_rate starts at 1.0; a reward program overrides it, and the
          -- cashback elif re-assigns the same 1.0
          let base_rate := match card.reward_program with
            | some p => get_point_value (some p)
            | none => 1
          match apply_cap_penalty effective_rate rule.caps 0 base_rate with
          | none => none
          | some ar =>
            let notes := ar.2
              ++ (if rule.is_rotating then [Note.rotating_category] else [])
              ++ (if rule.is_intro_offer_only then [Note.intro_offer] else [])
              ++ (match rule.stacking_rules with
                  | some s => if s.isEmpty then [] else [Note.stacking s]
                  | none => [])
            match collect_candidates mm resolved_categories all_cards rest with
            | none => none
            | some cs =>
              some (⟨card, ar.1, rule,
                     ⟨card.name, rule.multiplier, rule.reward_type, ar.1, rule.description⟩,
                     notes⟩ :: cs)

/-- Overall explanation of the ranked list (structured stand-in for the
sentences built at the end of `engine.find_best_cards_for_query`). -/
def overall_explanation (query : String) (resolved_categories : List String)
    (top_cards : List CardScore) : OverallExplanation :=
  match top_cards with
  | [] => .no_specific_rewards query
  | best :: rest =>
    .best_value query resolved_categories best.card.name
      best.effective_rate_cents_per_dollar
      (match rest with
       | [] => none
       | second :: _ => some (second.card.name, second.effective_rate_cents_per_dollar))

/-- The primary operation (`engine.find_best_cards_for_query`).  The
merchant table is threaded explicitly: the returned table reflects the
in-place `extend` that the source performs on the resolved mapping's
`normalized_categories` list, which aliases a `KNOWN_MERCHANTS` entry
whenever the query hit the table. -/
def find_best_cards_for_query (table : MerchantTable) (query : String)
    (all_cards : List CardProduct) (all_rules : List EarningRule)
    (max_results : Nat) : Option (MerchantTable × ComputedRecommendation) :=
  let r := resolve_merchant_query table query
  let mm := r.2
  let step : MerchantTable × List String :=
    match mm.mcc with
    | some m =>
      if m.isEmpty then (table, mm.normalized_categories)
      else
        let cats := mm.normalized_categories ++ get_categories_for_mcc m
        match r.1 with
        | some k => (update_cats table k cats, cats)
        | none => (table, cats)
    | none => (table, mm.normalized_categories)
  let resolved_categories := dedup_first step.2
  match collect_candidates mm resolved_categories all_cards all_rules with
  | none => none
  | some candidate_scores =>
    let top_cards :=
      (sort_desc (fun s : CardScore => s.effective_rate_cents_per_dollar)
        candidate_scores).take max_results
    some (step.1,
      ⟨query, resolved_categories, top_cards,
       overall_explanation query resolved_categories top_cards⟩)

/- ## HTTP recommendation endpoint (`src/app.py`, `get_recommendation`)

Only the pure filtering pipeline between `find_best_cards_for_query` and
the response object is modelled; catalog loading and serialization are
I/O. -/

/-- The `reward_type_map` dict of `app.get_recommendation`. -/
def reward_type_map : List (String × RewardType) :=
  [("cashback", .cashback_percent),
   ("points", .points_per_dollar),
   ("miles", .miles_per_dollar)]

/-- The `network_map` dict of `app.get_recommendation`. -/
def network_map : List (String × CardNetwork) :=
  [("visa", .visa),
   ("mastercard", .mastercard),
   ("amex", .amex),
   ("american express", .amex),
   ("discover", .discover)]

/-- Association-list version of `dict.get`. -/
def assoc_find {β : Type} (l : List (String × β)) (k : String) : Option β :=
  (l.find? (fun kv => kv.1 == k)).map (fun kv => kv.2)

/-- The `/api/recommend` handler's post-processing: ask the engine for
`max_results * 2` candidates, filter business cards unless
`include_business`, apply the optional issuer / reward-type / network
filters, and truncate to `max_results`. -/
def get_recommendation (table : MerchantTable) (query : String)
    (max_results : Nat) (issuer reward_type_q network_q : Option String)
    (include_business : Bool) (all_cards : List CardProduct)
    (all_rules : List EarningRule) :
    Option (MerchantTable × ComputedRecommendation) :=
  match find_best_cards_for_query table query all_cards all_rules (max_results * 2) with
  | none => none
  | some tr =>
    let rec0 := tr.2
    let f1 := if include_business then rec0.candidate_cards
      else rec0.candidate_cards.filter (fun cs => !cs.card.is_business_card)
    let f2 := match issuer with
      | some iss =>
        if iss.isEmpty then f1
        else f1.filter (fun cs => strIn (pyLower iss) (pyLower cs.card.issuer.name))
      | none => f1
    let f3 := match reward_type_q with
      | some rt =>
        if rt.isEmpty then f2
        else
          match assoc_find reward_type_map (pyLower rt) with
          | some target => f2.filter (fun cs => cs.card.type == target)
          | none => f2
      | none => f2
    let f4 := match network_q with
      | some nw =>
        if nw.isEmpty then f3
        else
          match assoc_find network_map (pyLower nw) with
          | some target => f3.filter (fun cs => cs.card.network == target)
          | none => f3
      | none => f3
    some (tr.1, { rec0 with candidate_cards := f4.take max_results })

/- ## Rule engine (`src/rule_engine.py`, class `RuleEngine`) -/

/-- Specificity score of a rule (`RuleEngine._rule_priority`). -/
def rule_priority (rule : EarningRule) : ℤ :=
  10 * (rule.merchant_categories.length : ℤ)
    + 20 * (rule.merchant_names.length : ℤ)
    + 15 * (rule.mcc_list.length : ℤ)
    + (if rule.caps.isEmpty then 0 else 5)
    + (if rule.is_rotating then -10 else 0)

/-- The OR match predicate shared by `RuleEngine.find_applicable_rule`:
nonempty category intersection, case-insensitive bidirectional
merchant-name substring containment (only when both the queried name and
the rule's name list are nonempty), or MCC membership. -/
def rule_matches (rule : EarningRule) (categories : List String)
    (merchant_name : Option String) (mcc : Option String) : Bool :=
  let category_match := match_categories rule.merchant_categories categories
  let merchant_match := match merchant_name with
    | some mn =>
      !mn.isEmpty && !rule.merchant_names.isEmpty &&
        rule.merchant_names.any (fun m =>
          strIn (pyLower m) (pyLower mn) || strIn (pyLower mn) (pyLower m))
    | none => false
  let mcc_match := mcc_truthy_mem mcc rule.mcc_list
  category_match || merchant_match || mcc_match

/-- The `_sorted_rules` field computed in `RuleEngine.__init__`:
pre-sorted descending by specificity with Python's stable sort. -/
def sorted_rules (rules : List EarningRule) : List EarningRule :=
  sort_desc rule_priority rules

/-- Best-single-rule matching (`RuleEngine.find_applicable_rule`): walk
the pre-sorted rules and return the first that matches, paired with its
effective rate; `none` when nothing matches (the caller applies the
default). -/
def find_applicable_rule (rules : List EarningRule) (card : CardProduct)
    (categories : List String) (merchant_name : Option String)
    (mcc : Option String) : Option (EarningRule × ℚ) :=
  match (sorted_rules rules).find? (fun r => rule_matches r categories merchant_name mcc) with
  | some r => some (r, compute_effective_rate r card.reward_program)
  | none => none

/- ## Lemmas about the stable descending sort -/

theorem length_insert_desc {α β : Type} [LinearOrder β] (key : α → β) (x : α)
    (l : List α) : (insert_desc key x l).length = l.length + 1 := by
  induction l with
  | nil => rfl
  | cons y ys ih => by_cases h : key x < key y <;> simp [insert_desc, h, ih]

theorem length_sort_desc {α β : Type} [LinearOrder β] (key : α → β) (l : List α) :
    (sort_desc key l).length = l.length := by
  induction l with
  | nil => rfl
  | cons x xs ih => simp [sort_desc, length_insert_desc, ih]

theorem mem_insert_desc {α β : Type} [LinearOrder β] (key : α → β) (a x : α)
    (l : List α) : a ∈ insert_desc key x l ↔ a = x ∨ a ∈ l := by
  induction l with
  | nil => simp [insert_desc]
  | cons y ys ih =>
    by_cases h : key x < key y <;> simp [insert_desc, h, ih] <;> tauto

theorem mem_sort_desc {α β : Type} [LinearOrder β] (key : α → β) (a : α)
    (l : List α) : a ∈ sort_desc key l ↔ a ∈ l := by
  induction l with
  | nil => simp [sort_desc]
  | cons x xs ih => simp [sort_desc, mem_insert_desc, ih]

theorem sorted_insert_desc {α β : Type} [LinearOrder β] (key : α → β) (x : α)
    (l : List α) (h : List.Pairwise (fun a b => key b ≤ key a) l) :
    List.Pairwise (fun a b => key b ≤ key a) (insert_desc key x l) := by
  induction l with
  | nil => simp [insert_desc]
  | cons y ys ih =>
    rcases List.pairwise_cons.mp h with ⟨hy, hys⟩
    by_cases hlt : key x < key y
    · simp only [insert_desc, if_pos hlt]
      refine List.pairwise_cons.mpr ⟨?_, ih hys⟩
      intro b hb
      rcases (mem_insert_desc key b x ys).mp hb with rfl | hb
      · exact le_of_lt hlt
      · exact hy b hb
    · simp only [insert_desc, if_neg hlt]
      refine List.pairwise_cons.mpr ⟨?_, h⟩
      intro b hb
      rcases List.mem_cons.mp hb with rfl | hb
      · exact not_lt.mp hlt
      · exact le_trans (hy b hb) (not_lt.mp hlt)

theorem sorted_sort_desc {α β : Type} [LinearOrder β] (key : α → β) (l : List α) :
    List.Pairwise (fun a b => key b ≤ key a) (sort_desc key l) := by
  induction l with
  | nil => simp [sort_desc]
  | cons x xs ih => exact sorted_insert_desc key x _ ih

/-- Inserting `x` never crosses an element whose key equals `key x`, so
the sub-list of any fixed key value gains `x` at its front exactly when
`x` has that key. -/
theorem filter_insert_desc {α β : Type} [LinearOrder β] (key : α → β) (x : α)
    (l : List α) (r : β) :
    (insert_desc key x l).filter (fun a => decide (key a = r)) =
      if key x = r then x :: l.filter (fun a => decide (key a = r))
      else l.filter (fun a => decide (key a = r)) := by
  induction l with
  | nil => by_cases h : key x = r <;> simp [insert_desc, h]
  | cons y ys ih =>
    simp only [insert_desc]
    by_cases hlt : key x < key y
    · rw [if_pos hlt]
      by_cases hx : key x = r
      · have hy : ¬ (key y = r) := fun hh => absurd (hx.trans hh.symm) (ne_of_lt hlt)
        simp [List.filter_cons, hy, ih, hx]
      · by_cases hy : key y = r <;> simp [List.filter_cons, hy, ih, hx]
    · rw [if_neg hlt]
      by_cases hx : key x = r <;> by_cases hy : key y = r <;>
        simp [List.filter_cons, hx, hy]

/-- Stability of the sort: for each key value, the sorted list contains
exactly the original elements with that key, in their original order. -/
theorem filter_sort_desc {α β : Type} [LinearOrder β] (key : α → β) (l : List α)
    (r : β) :
    (sort_desc key l).filter (fun a => decide (key a = r)) =
      l.filter (fun a => decide (key a = r)) := by
  induction l with
  | nil => rfl
  | cons x xs ih =>
    simp only [sort_desc, filter_insert_desc, ih, List.filter_cons]
    by_cases hx : key x = r <;> simp [hx]

/-- In a descending-sorted list, the first element satisfying `p` has a
maximal key among the elements satisfying `p`. -/
theorem find?_sorted_max {α β : Type} [LinearOrder β] (key : α → β)
    (p : α → Bool) (x : α) :
    ∀ l : List α, List.Pairwise (fun a b => key b ≤ key a) l →
      l.find? p = some x → ∀ y ∈ l, p y = true → key y ≤ key x := by
  intro l
  induction l with
  | nil => simp
  | cons h t ih =>
    intro hp hf y hy hpy
    rcases List.pairwise_cons.mp hp with ⟨hht, hpt⟩
    by_cases hph : p h
    · rw [List.find?_cons_of_pos _ hph] at hf
      cases hf
      rcases List.mem_cons.mp hy with rfl | hy
      · exact le_refl _
      · exact hht y hy
    · rw [List.find?_cons_of_neg _ hph] at hf
      rcases List.mem_cons.mp hy with rfl | hy
      · rw [hpy] at hph; exact absurd rfl hph
      · exact ih hpt hf y hy hpy

/- ## Claim C2: zero-spend cap blending -/

/-- C2.  With a nonempty caps list, zero `spending_amount`, and the first
cap's amount positive (as the `Cap` data model requires), `apply_cap_penalty`
returns the blended rate `(effective_rate + base_rate) / 2` together with
exactly one note carrying the cap amount, the cap period, and the blended
rate of the blended-spend assumption. -/
theorem C2_zero_spend_blended (effective_rate base_rate : ℚ) (cap : Cap)
    (rest : List Cap) (hc : 0 < cap.amount_dollars) :
    apply_cap_penalty effective_rate (cap :: rest) 0 base_rate =
      some ((effective_rate + base_rate) / 2,
        [Note.cap_blended cap.amount_dollars cap.period
          ((effective_rate + base_rate) / 2)]) := by
  have hne : cap.amount_dollars * 2 ≠ 0 := by positivity
  have hr : (cap.amount_dollars * effective_rate +
      (cap.amount_dollars * 2 - cap.amount_dollars) * base_rate) /
      (cap.amount_dollars * 2) = (effective_rate + base_rate) / 2 := by
    field_simp
    ring
  simp [apply_cap_penalty, hne, hr]

/-- Witness for C2: the spec's instance `effective_rate = 5`,
`base_rate = 1`, cap 1500 per quarter gives the blended rate 3. -/
theorem C2_witness :
    apply_cap_penalty 5 [⟨1500, "quarter", none⟩] 0 1 =
      some (3, [Note.cap_blended 1500 "quarter" 3]) := by
  have h := C2_zero_spend_blended 5 1 ⟨1500, "quarter", none⟩ [] (by norm_num)
  norm_num at h
  exact h

/- ## Claim C3: cap exceeded and within-limit branches -/

/-- C3.  When `spending_amount` strictly exceeds the first cap's (positive)
amount, `apply_cap_penalty` returns the blended rate
`(cap·effective + (spending − cap)·base) / spending` with a single
cap-exceeded note; when `0 < spending_amount ≤ cap`, it returns
`effective_rate` unchanged with a single within-limit note. -/
theorem C3_exceeded_and_within :
    (∀ (effective_rate base_rate spending_amount : ℚ) (cap : Cap)
        (rest : List Cap), 0 < cap.amount_dollars →
        cap.amount_dollars < spending_amount →
        apply_cap_penalty effective_rate (cap :: rest) spending_amount base_rate =
          some ((cap.amount_dollars * effective_rate +
              (spending_amount - cap.amount_dollars) * base_rate) / spending_amount,
            [Note.cap_exceeded cap.amount_dollars cap.period
              ((cap.amount_dollars * effective_rate +
                (spending_amount - cap.amount_dollars) * base_rate) / spending_amount)]))
  ∧ (∀ (effective_rate base_rate spending_amount : ℚ) (cap : Cap)
        (rest : List Cap), 0 < spending_amount →
        spending_amount ≤ cap.amount_dollars →
        apply_cap_penalty effective_rate (cap :: rest) spending_amount base_rate =
          some (effective_rate,
            [Note.cap_within_limit cap.amount_dollars cap.period])) := by
  constructor
  · intro e b s cap rest hc hs
    have h0 : ¬ (s = 0) := (hc.trans hs).ne'
    simp [apply_cap_penalty, h0, hs]
  · intro e b s cap rest hs0 hsc
    have h0 : ¬ (s = 0) := hs0.ne'
    have h2 : ¬ (cap.amount_dollars < s) := not_lt.mpr hsc
    simp [apply_cap_penalty, h0, h2]

/-- Witness for C3: the spec's instance cap 1000, rates 5 and 1, spend
3000 gives 7/3 (≈ 2.33); and spend 500 stays at 5 with the within-limit
note. -/
theorem C3_witness :
    apply_cap_penalty 5 [⟨1000, "year", none⟩] 3000 1 =
      some (7/3, [Note.cap_exceeded 1000 "year" (7/3)])
  ∧ apply_cap_penalty 5 [⟨1000, "year", none⟩] 500 1 =
      some (5, [Note.cap_within_limit 1000 "year"]) := by
  constructor
  · have h := C3_exceeded_and_within.1 5 1 3000 ⟨1000, "year", none⟩ []
      (by norm_num) (by norm_num)
    norm_num at h
    exact h
  · exact C3_exceeded_and_within.2 5 1 500 ⟨1000, "year", none⟩ []
      (by norm_num) (by norm_num)

/- ## Claim C10: totality of the cap adjustment -/

/-- C10.  With the first cap amount strictly positive and a nonnegative
`spending_amount`, `apply_cap_penalty` always returns a pair: the
zero-spend branch divides by `2 · cap > 0` and the exceeded branch
divides by `spending_amount`, which is nonzero in that branch. -/
theorem C10_no_div_by_zero (effective_rate base_rate spending_amount : ℚ)
    (cap : Cap) (rest : List Cap) (hc : 0 < cap.amount_dollars)
    (hs : 0 ≤ spending_amount) :
    ∃ p, apply_cap_penalty effective_rate (cap :: rest) spending_amount base_rate =
      some p := by
  rcases hap : apply_cap_penalty effective_rate (cap :: rest) spending_amount base_rate
    with _ | p
  · exfalso
    by_cases h0 : spending_amount = 0
    · subst h0
      have hne : cap.amount_dollars * 2 ≠ 0 := by positivity
      simp [apply_cap_penalty, hne] at hap
    · by_cases hlt : cap.amount_dollars < spending_amount
      · simp [apply_cap_penalty, h0, hlt] at hap
      · simp [apply_cap_penalty, h0, hlt] at hap
  · exact ⟨p, rfl⟩

/-- Witness for C10 at a concrete cap and spend. -/
theorem C10_witness :
    ∃ p, apply_cap_penalty 5 [⟨1500, "quarter", none⟩] 200 1 = some p :=
  C10_no_div_by_zero 5 1 200 ⟨1500, "quarter", none⟩ [] (by norm_num) (by norm_num)

/- ## Nonnegativity lemmas for the valuation path -/

theorem card_dict_lookup_mem (all_cards : List CardProduct) (cid : String)
    (card : CardProduct) (h : card_dict_lookup all_cards cid = some card) :
    card ∈ all_cards := by
  unfold card_dict_lookup at h
  exact List.mem_reverse.mp (List.mem_of_find?_eq_some h)

theorem get_point_value_nonneg (hpv : ∀ kv ∈ POINT_VALUES, 0 ≤ kv.2) :
    ∀ p : Option RewardProgram,
      (∀ q, p = some q → 0 ≤ q.base_point_value_cents) → 0 ≤ get_point_value p := by
  intro p hbase
  cases p with
  | none =>
    unfold get_point_value pv_lookup
    cases hf : POINT_VALUES.find? (fun kv => kv.1 == "DEFAULT") with
    | none => simp [hf]
    | some kv =>
      simp only [hf]
      exact hpv kv (List.mem_of_find?_eq_some hf)
  | some q =>
    unfold get_point_value pv_lookup
    cases hf : POINT_VALUES.find? (fun kv => kv.1 == pyUpper q.id) with
    | none =>
      simp only [hf]
      exact hbase q rfl
    | some kv =>
      simp only [hf]
      exact hpv kv (List.mem_of_find?_eq_some hf)

theorem compute_effective_rate_nonneg (rule : EarningRule)
    (prog : Option RewardProgram) (hm : 0 ≤ rule.multiplier)
    (hpv : ∀ kv ∈ POINT_VALUES, 0 ≤ kv.2)
    (hbase : ∀ q, prog = some q → 0 ≤ q.base_point_value_cents) :
    0 ≤ compute_effective_rate rule prog := by
  have hg : 0 ≤ get_point_value prog := get_point_value_nonneg hpv prog hbase
  cases hrt : rule.reward_type <;> simp [compute_effective_rate, hrt] <;>
    first
    | exact hm
    | exact mul_nonneg hm hg

theorem apply_cap_penalty_nonneg (e b : ℚ) (caps : List Cap)
    (ar : ℚ × List Note) (he : 0 ≤ e) (hb : 0 ≤ b)
    (hcaps : ∀ c ∈ caps, 0 < c.amount_dollars)
    (h : apply_cap_penalty e caps 0 b = some ar) : 0 ≤ ar.1 := by
  cases caps with
  | nil =>
    simp only [apply_cap_penalty, Option.some.injEq] at h
    subst h
    exact he
  | cons cap rest =>
    have hc := hcaps cap (List.mem_cons_self _ _)
    have hne : ¬ (cap.amount_dollars * 2 = 0) := by positivity
    simp only [apply_cap_penalty, if_true] at h
    rw [if_neg hne] at h
    injection h with h'
    subst h'
    show 0 ≤ (cap.amount_dollars * e + (cap.amount_dollars * 2 - cap.amount_dollars) * b) /
      (cap.amount_dollars * 2)
    have key : cap.amount_dollars * 2 - cap.amount_dollars = cap.amount_dollars := by
      ring
    rw [key]
    apply div_nonneg
    · exact add_nonneg (mul_nonneg hc.le he) (mul_nonneg hc.le hb)
    · positivity

theorem collect_candidates_nonneg (mm : MerchantCategoryMapping)
    (resolved : List String) (all_cards : List CardProduct)
    (hprog : ∀ card ∈ all_cards, ∀ p, card.reward_program = some p →
      0 ≤ p.base_point_value_cents)
    (hpv : ∀ kv ∈ POINT_VALUES, 0 ≤ kv.2) :
    ∀ (rules : List EarningRule) (cs : List CardScore),
      (∀ r ∈ rules, 0 ≤ r.multiplier) →
      (∀ r ∈ rules, ∀ c ∈ r.caps, 0 < c.amount_dollars) →
      collect_candidates mm resolved all_cards rules = some cs →
      ∀ s ∈ cs, 0 ≤ s.effective_rate_cents_per_dollar := by
  intro rules
  induction rules with
  | nil =>
    intro cs _ _ h s hs
    simp only [collect_candidates, Option.some.injEq] at h
    subst h
    simp at hs
  | cons rule rest ih =>
    intro cs hmul hcap h s hs
    have hmul' : ∀ r ∈ rest, 0 ≤ r.multiplier :=
      fun r hr => hmul r (List.mem_cons_of_mem _ hr)
    have hcap' : ∀ r ∈ rest, ∀ c ∈ r.caps, 0 < c.amount_dollars :=
      fun r hr => hcap r (List.mem_cons_of_mem _ hr)
    simp only [collect_candidates] at h
    split at h
    · exact ih cs hmul' hcap' h s hs
    case _ card hcd =>
      split at h
      · exact ih cs hmul' hcap' h s hs
      · split at h
        · exact ih cs hmul' hcap' h s hs
        · split at h
          · exact Option.noConfusion h
          case _ ar hap =>
            split at h
            · exact Option.noConfusion h
            case _ cs' hrest =>
              simp only [Option.some.injEq] at h
              subst h
              rcases List.mem_cons.mp hs with rfl | hs'
              · have hcm : card ∈ all_cards := card_dict_lookup_mem _ _ _ hcd
                have he : 0 ≤ compute_effective_rate rule card.reward_program :=
                  compute_effective_rate_nonneg rule card.reward_program
                    (hmul rule (List.mem_cons_self _ _)) hpv
                    (fun q hq => hprog card hcm q hq)
                have hb : 0 ≤ (match card.reward_program with
                    | some p => get_point_value (some p)
                    | none => (1 : ℚ)) := by
                  cases hrp : card.reward_program with
                  | none => norm_num
                  | some p =>
                    exact get_point_value_nonneg hpv (some p)
                      (fun q hq => hprog card hcm q (hrp.trans hq))
                exact apply_cap_penalty_nonneg _ _ _ _ he hb
                  (hcap rule (List.mem_cons_self _ _)) hap
              · exact ih cs' hmul' hcap' hrest s hs'

theorem collect_candidates_sublist (mm : MerchantCategoryMapping)
    (resolved : List String) (all_cards : List CardProduct) :
    ∀ (rules : List EarningRule) (cs : List CardScore),
      collect_candidates mm resolved all_cards rules = some cs →
      List.Sublist (cs.map (fun s => s.matching_rule)) rules := by
  intro rules
  induction rules with
  | nil =>
    intro cs h
    simp only [collect_candidates, Option.some.injEq] at h
    subst h
    simp
  | cons rule rest ih =>
    intro cs h
    simp only [collect_candidates] at h
    split at h
    · exact (ih cs h).cons rule
    · split at h
      · exact (ih cs h).cons rule
      · split at h
        · exact (ih cs h).cons rule
        · split at h
          · exact Option.noConfusion h
          · split at h
            · exact Option.noConfusion h
            case _ cs' hrest =>
              simp only [Option.some.injEq] at h
              subst h
              simp only [List.map_cons]
              exact (ih cs' hrest).cons₂ rule

/- ## Concrete catalog used by the end-to-end claims

Concrete evaluation of the pipeline needs the kernel to unfold the
rational-number operations, which Batteries marks irreducible for the
elaborator; they are restored to normal transparency locally. -/

section ConcreteEvaluation

attribute [local semireducible] Rat.mul Rat.add Rat.sub Rat.inv Rat.ofScientific

/-- A reward program whose id hits the `CHASE_UR` valuation-table entry
(the repository's scrapers construct it with
`base_point_value_cents=0.017`). -/
def chase_ur : RewardProgram := ⟨"CHASE_UR", "Chase Ultimate Rewards", 0.017, none⟩

/-- A personal points card on the `CHASE_UR` program. -/
def points_card : CardProduct :=
  ⟨"pts1", ⟨"Chase", "https://chase.com", none⟩, "Points Card", .visa,
   .points_per_dollar, 0, 0, some chase_ur, false, none, none⟩

/-- A personal cashback card with no reward program. -/
def cashback_card : CardProduct :=
  ⟨"cb1", ⟨"Amex", "https://amex.com", none⟩, "Cashback Card", .amex,
   .cashback_percent, 0, 0, none, false, none, none⟩

/-- A 4x points grocery rule, uncapped. -/
def points_rule : EarningRule :=
  ⟨"pts1", "4x points at grocery stores", ["groceries"], [], [], 4,
   .points_per_dollar, [], none, false, false⟩

/-- A 6 percent cashback grocery rule capped at 6000 dollars per year. -/
def cashback_rule : EarningRule :=
  ⟨"cb1", "6 percent cash back at supermarkets", ["groceries"], [], [], 6,
   .cashback_percent, [⟨6000, "year", none⟩], none, false, false⟩

/-- The score the engine produces for `cashback_rule` on the query
"groceries": blended to (6+1)/2 = 3.5 by the zero-spend cap assumption. -/
def cb_score : CardScore :=
  ⟨cashback_card, 7/2, cashback_rule,
   ⟨"Cashback Card", 6, .cashback_percent, 7/2, "6 percent cash back at supermarkets"⟩,
   [Note.cap_blended 6000 "year" (7/2)]⟩

/-- The recommendation for "groceries" against the single cashback card. -/
def rec_cb : ComputedRecommendation :=
  ⟨"groceries", ["groceries"], [cb_score],
   .best_value "groceries" ["groceries"] "Cashback Card" (7/2) none⟩

/- ## Claim C9: returned effective rates are nonnegative -/

/-- C9.  Under the data-supplier preconditions (nonnegative multipliers,
nonnegative valuation-table entries and program base values, strictly
positive cap amounts), every `CardScore` returned by
`find_best_cards_for_query` has a nonnegative effective rate. -/
theorem C9_nonneg_rates (table : MerchantTable) (query : String)
    (all_cards : List CardProduct) (all_rules : List EarningRule)
    (max_results : Nat) (t' : MerchantTable) (rec : ComputedRecommendation)
    (hmul : ∀ r ∈ all_rules, 0 ≤ r.multiplier)
    (hcap : ∀ r ∈ all_rules, ∀ c ∈ r.caps, 0 < c.amount_dollars)
    (hprog : ∀ card ∈ all_cards, ∀ p, card.reward_program = some p →
      0 ≤ p.base_point_value_cents)
    (hpv : ∀ kv ∈ POINT_VALUES, 0 ≤ kv.2)
    (h : find_best_cards_for_query table query all_cards all_rules max_results =
      some (t', rec)) :
    ∀ s ∈ rec.candidate_cards, 0 ≤ s.effective_rate_cents_per_dollar := by
  simp only [find_best_cards_for_query] at h
  split at h
  · exact Option.noConfusion h
  case _ cs heq =>
    simp only [Option.some.injEq, Prod.mk.injEq] at h
    obtain ⟨ht, hrec⟩ := h
    subst hrec
    intro s hs
    have hs1 : s ∈ sort_desc (fun s : CardScore => s.effective_rate_cents_per_dollar) cs :=
      List.take_subset _ _ hs
    have hs2 : s ∈ cs := (mem_sort_desc _ s cs).mp hs1
    exact collect_candidates_nonneg _ _ _ hprog hpv all_rules cs hmul hcap heq s hs2

set_option maxRecDepth 20000 in
/-- Witness for C9 at the concrete cashback catalog. -/
theorem C9_witness : 0 ≤ cb_score.effective_rate_cents_per_dollar :=
  C9_nonneg_rates [] "groceries" [cashback_card] [cashback_rule] 5
    [] rec_cb
    (by decide)
    (by decide)
    (by
      intro card hcard p hp
      rcases List.mem_singleton.mp hcard with rfl
      simp [cashback_card] at hp)
    (by decide)
    (by decide)
    cb_score (by decide)

/- ## Claim C4: ranking is sorted, truncated, and stable -/

/-- C4.  The candidate list returned by `find_best_cards_for_query` is
sorted nonincreasing by adjusted rate, has length at most `max_results`,
and is the `max_results`-prefix of a stable descending sort of the
pre-sort candidate list, whose rules form a sublist of the rule catalog;
for each rate value, the returned candidates with that rate are a prefix
of the pre-sort candidates with that rate, so equal-rate candidates keep
their rule-catalog order. -/
theorem C4_ranked_stable (table : MerchantTable) (query : String)
    (all_cards : List CardProduct) (all_rules : List EarningRule)
    (max_results : Nat) (t' : MerchantTable) (rec : ComputedRecommendation)
    (h : find_best_cards_for_query table query all_cards all_rules max_results =
      some (t', rec)) :
    List.Pairwise (fun a b =>
      b.effective_rate_cents_per_dollar ≤ a.effective_rate_cents_per_dollar)
      rec.candidate_cards
    ∧ rec.candidate_cards.length ≤ max_results
    ∧ ∃ cs : List CardScore,
        List.Sublist (cs.map (fun s => s.matching_rule)) all_rules
        ∧ rec.candidate_cards =
            (sort_desc (fun s : CardScore => s.effective_rate_cents_per_dollar) cs).take
              max_results
        ∧ ∀ r : ℚ, List.IsPrefix
            (rec.candidate_cards.filter
              (fun s => decide (s.effective_rate_cents_per_dollar = r)))
            (cs.filter (fun s => decide (s.effective_rate_cents_per_dollar = r))) := by
  simp only [find_best_cards_for_query] at h
  split at h
  · exact Option.noConfusion h
  case _ cs heq =>
    simp only [Option.some.injEq, Prod.mk.injEq] at h
    obtain ⟨ht, hrec⟩ := h
    subst hrec
    refine ⟨?_, ?_, cs, collect_candidates_sublist _ _ _ _ _ heq, rfl, ?_⟩
    · exact List.Pairwise.sublist (List.take_sublist _ _) (sorted_sort_desc _ cs)
    · exact List.length_take_le _ _
    · intro r
      have h2 := (List.take_prefix max_results
          (sort_desc (fun s : CardScore => s.effective_rate_cents_per_dollar) cs)).filter
        (fun s => decide (s.effective_rate_cents_per_dollar = r))
      rw [filter_sort_desc] at h2
      exact h2

set_option maxRecDepth 20000 in
/-- Witness for C4 at the concrete cashback catalog. -/
theorem C4_witness : rec_cb.candidate_cards.length ≤ 5 :=
  (C4_ranked_stable [] "groceries" [cashback_card] [cashback_rule] 5
    [] rec_cb (by decide)).2.1

/- ## Claim C8: best-single-rule matcher -/

/-- C8.  A rule returned by `find_applicable_rule` is a catalog rule that
satisfies the OR match predicate and has maximal specificity score among
the satisfying rules, and it is returned with its effective rate; the
matcher returns `none` exactly when no rule satisfies the predicate — it
never invents a default rule. -/
theorem C8_best_single_rule (rules : List EarningRule) (card : CardProduct)
    (categories : List String) (merchant_name mcc : Option String) :
    (∀ r er, find_applicable_rule rules card categories merchant_name mcc =
        some (r, er) →
      r ∈ rules ∧ rule_matches r categories merchant_name mcc = true ∧
      er = compute_effective_rate r card.reward_program ∧
      ∀ r' ∈ rules, rule_matches r' categories merchant_name mcc = true →
        rule_priority r' ≤ rule_priority r)
    ∧ (find_applicable_rule rules card categories merchant_name mcc = none ↔
        ∀ r ∈ rules, rule_matches r categories merchant_name mcc = false) := by
  constructor
  · intro r er h
    unfold find_applicable_rule at h
    cases hf : (sorted_rules rules).find?
        (fun r => rule_matches r categories merchant_name mcc) with
    | none => rw [hf] at h; exact Option.noConfusion h
    | some r0 =>
      rw [hf] at h
      injection h with h'
      obtain ⟨hr, her⟩ := Prod.mk.injEq .. |>.mp h'
      subst hr
      have hmatch : rule_matches r0 categories merchant_name mcc = true := by
        have hx := List.find?_some hf
        simpa using hx
      refine ⟨?_, hmatch, her.symm, ?_⟩
      · exact (mem_sort_desc rule_priority r0 rules).mp (List.mem_of_find?_eq_some hf)
      · intro r' hr' hm'
        exact find?_sorted_max rule_priority _ r0 (sorted_rules rules)
          (sorted_sort_desc rule_priority rules) hf r'
          ((mem_sort_desc rule_priority r' rules).mpr hr') hm'
  · constructor
    · intro hnone r hr
      unfold find_applicable_rule at hnone
      cases hf : (sorted_rules rules).find?
          (fun r => rule_matches r categories merchant_name mcc) with
      | some r0 => rw [hf] at hnone; exact Option.noConfusion hnone
      | none =>
        have hx := List.find?_eq_none.mp hf r ((mem_sort_desc _ r rules).mpr hr)
        exact Bool.eq_false_iff.mpr hx
    · intro hall
      unfold find_applicable_rule
      cases hf : (sorted_rules rules).find?
          (fun r => rule_matches r categories merchant_name mcc) with
      | none => rfl
      | some r0 =>
        have h1 := List.find?_some hf
        have h2 := (mem_sort_desc _ r0 rules).mp (List.mem_of_find?_eq_some hf)
        rw [hall r0 h2] at h1
        exact Bool.noConfusion h1

/-- A low-specificity single-category rule (score 10). -/
def r8_low : EarningRule :=
  ⟨"c8", "2 percent on groceries", ["groceries"], [], [], 2,
   .cashback_percent, [], none, false, false⟩

/-- A higher-specificity two-category rule (score 20). -/
def r8_high : EarningRule :=
  ⟨"c8", "3 percent on groceries and gas", ["groceries", "gas"], [], [], 3,
   .cashback_percent, [], none, false, false⟩

/-- The card owning the two C8 rules. -/
def c8_card : CardProduct :=
  ⟨"c8", ⟨"Issuer", "https://issuer.example", none⟩, "C8 Card", .visa,
   .cashback_percent, 0, 0, none, false, none, none⟩

set_option maxRecDepth 20000 in
/-- Witness for C8: with both rules matching "groceries", the matcher
returns the higher-scored rule, so the maximality component applies. -/
theorem C8_witness : rule_priority r8_low ≤ rule_priority r8_high :=
  ((C8_best_single_rule [r8_low, r8_high] c8_card ["groceries"] none none).1
    r8_high 3 (by decide)).2.2.2 r8_low (by simp) (by decide)

/- ## Bridging lemmas for the merchant scan -/

theorem scan_table_eq_find? (p : String × MerchantCategoryMapping → Bool) :
    ∀ l : MerchantTable, scan_table p l = l.find? p := by
  intro l
  induction l with
  | nil => rfl
  | cons e rest ih =>
    by_cases h : p e
    · simp [scan_table, h, List.find?_cons_of_pos _ h]
    · simp [scan_table, h, List.find?_cons_of_neg _ h, ih]

theorem upd_entry_fst (k : String) (cats : List String)
    (e : String × MerchantCategoryMapping) : (upd_entry k cats e).1 = e.1 := by
  unfold upd_entry
  split <;> rfl

theorem exact_key_pred_upd (ql qc k : String) (cats : List String)
    (e : String × MerchantCategoryMapping) :
    exact_key_pred ql qc (upd_entry k cats e) = exact_key_pred ql qc e := by
  unfold exact_key_pred upd_entry
  split <;> rfl

theorem key_sub_pred_upd (ql qc k : String) (cats : List String)
    (e : String × MerchantCategoryMapping) :
    key_sub_pred ql qc (upd_entry k cats e) = key_sub_pred ql qc e := by
  unfold key_sub_pred upd_entry
  split <;> rfl

theorem alias_exact_pred_upd (ql qc k : String) (cats : List String)
    (e : String × MerchantCategoryMapping) :
    alias_exact_pred ql qc (upd_entry k cats e) = alias_exact_pred ql qc e := by
  unfold alias_exact_pred upd_entry
  split <;> rfl

theorem alias_sub_pred_upd (ql qc k : String) (cats : List String)
    (e : String × MerchantCategoryMapping) :
    alias_sub_pred ql qc (upd_entry k cats e) = alias_sub_pred ql qc e := by
  unfold alias_sub_pred upd_entry
  split <;> rfl

theorem find?_map_invariant {α : Type} (f : α → α) (p : α → Bool)
    (hp : ∀ x, p (f x) = p x) :
    ∀ l : List α, (l.map f).find? p = (l.find? p).map f := by
  intro l
  induction l with
  | nil => rfl
  | cons a t ih =>
    by_cases h : p a
    · have hfa : p (f a) = true := (hp a).trans h
      simp [List.map_cons, List.find?_cons_of_pos _ hfa, List.find?_cons_of_pos _ h]
    · have hfa : ¬ (p (f a) = true) := by rw [hp a]; exact h
      simp [List.map_cons, List.find?_cons_of_neg _ hfa, List.find?_cons_of_neg _ h, ih]

/-- Updating the categories of one entry never changes which entry the
four merchant-identification loops select, because they read only keys
and aliases. -/
theorem find_merchant_update (table : MerchantTable) (k : String)
    (cats : List String) (ql qc : String) :
    find_merchant (update_cats table k cats) ql qc =
      (find_merchant table ql qc).map (upd_entry k cats) := by
  unfold find_merchant update_cats
  rw [scan_table_eq_find?, scan_table_eq_find?, scan_table_eq_find?,
    scan_table_eq_find?, scan_table_eq_find?, scan_table_eq_find?,
    scan_table_eq_find?, scan_table_eq_find?]
  rw [find?_map_invariant _ _ (exact_key_pred_upd ql qc k cats),
    find?_map_invariant _ _ (key_sub_pred_upd ql qc k cats),
    find?_map_invariant _ _ (alias_exact_pred_upd ql qc k cats),
    find?_map_invariant _ _ (alias_sub_pred_upd ql qc k cats)]
  cases h1 : table.find? (exact_key_pred ql qc) with
  | some e => simp
  | none =>
    simp only [Option.map_none']
    cases h2 : table.find? (key_sub_pred ql qc) with
    | some e => simp
    | none =>
      simp only [Option.map_none']
      cases h3 : table.find? (alias_exact_pred ql qc) with
      | some e => simp
      | none => simp

/-- The candidate loop reads only the merchant name and the MCC of the
resolution (the categories come in separately, already merged). -/
theorem collect_candidates_congr (mm mm' : MerchantCategoryMapping)
    (resolved : List String) (all_cards : List CardProduct)
    (hname : mm'.merchant_name = mm.merchant_name) (hmcc : mm'.mcc = mm.mcc) :
    ∀ rules, collect_candidates mm' resolved all_cards rules =
      collect_candidates mm resolved all_cards rules := by
  intro rules
  induction rules with
  | nil => rfl
  | cons rule rest ih =>
    simp only [collect_candidates, hname, hmcc, ih]

/- ## Lemmas about first-occurrence deduplication -/

theorem dedup_first_aux_all_seen {α : Type} [DecidableEq α] :
    ∀ (m seen : List α), (∀ x ∈ m, x ∈ seen) → dedup_first_aux seen m = [] := by
  intro m
  induction m with
  | nil => intro seen _; rfl
  | cons a t ih =>
    intro seen h
    have ha : a ∈ seen := h a (List.mem_cons_self _ _)
    simp only [dedup_first_aux, if_pos ha]
    exact ih seen (fun x hx => h x (List.mem_cons_of_mem _ hx))

theorem dedup_first_aux_append {α : Type} [DecidableEq α] :
    ∀ (w m seen : List α), (∀ x ∈ m, x ∈ w ∨ x ∈ seen) →
      dedup_first_aux seen (w ++ m) = dedup_first_aux seen w := by
  intro w
  induction w with
  | nil =>
    intro m seen h
    simp only [List.nil_append, dedup_first_aux]
    exact dedup_first_aux_all_seen m seen
      (fun x hx => (h x hx).resolve_left (fun hc => (List.not_mem_nil x) hc))
  | cons a w' ih =>
    intro m seen h
    simp only [List.cons_append, dedup_first_aux]
    by_cases ha : a ∈ seen
    · rw [if_pos ha, if_pos ha]
      refine ih m seen ?_
      intro x hx
      rcases h x hx with hxw | hxs
      · rcases List.mem_cons.mp hxw with rfl | h'
        · exact Or.inr ha
        · exact Or.inl h'
      · exact Or.inr hxs
    · rw [if_neg ha, if_neg ha]
      congr 1
      refine ih m (a :: seen) ?_
      intro x hx
      rcases h x hx with hxw | hxs
      · rcases List.mem_cons.mp hxw with rfl | h'
        · exact Or.inr (List.mem_cons_self _ _)
        · exact Or.inl h'
      · exact Or.inr (List.mem_cons_of_mem _ hxs)

/-- Appending elements already present does not change the canonical
deduplication (the model of `list(set(...))`). -/
theorem dedup_first_append_of_subset {α : Type} [DecidableEq α]
    (w m : List α) (h : ∀ x ∈ m, x ∈ w) : dedup_first (w ++ m) = dedup_first w :=
  dedup_first_aux_append w m [] (fun x hx => Or.inl (h x hx))

/- ## Claim C7: merchant identification order -/

/-- Reading of the spec sentence for comparison ("First table entry (in
table-declared order) that satisfies any of these wins"): a single scan
taking the first entry satisfying ANY of the four criteria. -/
def spec_first_any_entry (table : MerchantTable) (ql qc : String) :
    Option (String × MerchantCategoryMapping) :=
  table.find? (fun e => exact_key_pred ql qc e || key_sub_pred ql qc e ||
    alias_exact_pred ql qc e || alias_sub_pred ql qc e)

/-- C7 (amended).  Merchant identification is stratified into four whole-
table passes in source order — exact key, key substring, exact alias,
alias substring — and within each pass the first entry in table-declared
order wins; an entry matching an earlier pass beats any entry matching
only a later pass, regardless of table order. -/
theorem C7_stratified_passes (table : MerchantTable) (q ql qc : String)
    (hql : ql = pyStrip (pyLower q)) (hqc : qc = pyStrip (clean_noise ql)) :
    (∀ e, table.find? (exact_key_pred ql qc) = some e →
      resolve_merchant_query table q = (some e.1, e.2))
  ∧ (table.find? (exact_key_pred ql qc) = none →
      ∀ e, table.find? (key_sub_pred ql qc) = some e →
        resolve_merchant_query table q = (some e.1, e.2))
  ∧ (table.find? (exact_key_pred ql qc) = none →
      table.find? (key_sub_pred ql qc) = none →
      ∀ e, table.find? (alias_exact_pred ql qc) = some e →
        resolve_merchant_query table q = (some e.1, e.2))
  ∧ (table.find? (exact_key_pred ql qc) = none →
      table.find? (key_sub_pred ql qc) = none →
      table.find? (alias_exact_pred ql qc) = none →
      ∀ e, table.find? (alias_sub_pred ql qc) = some e →
        resolve_merchant_query table q = (some e.1, e.2)) := by
  subst hql
  subst hqc
  refine ⟨?_, ?_, ?_, ?_⟩
  · intro e h1
    simp [resolve_merchant_query, find_merchant, scan_table_eq_find?, h1]
  · intro h1 e h2
    simp [resolve_merchant_query, find_merchant, scan_table_eq_find?, h1, h2]
  · intro h1 h2 e h3
    simp [resolve_merchant_query, find_merchant, scan_table_eq_find?, h1, h2, h3]
  · intro h1 h2 h3 e h4
    simp [resolve_merchant_query, find_merchant, scan_table_eq_find?, h1, h2, h3, h4]

/-- Counterexample to C7 as stated: for the query "ralphs shell" the
first table entry satisfying ANY criterion is Kroger (its alias "ralphs"
occurs in the query), but the code resolves to Shell, because the key-
substring pass over the whole table runs before any alias pass. -/
theorem C7_counterexample :
    (spec_first_any_entry KNOWN_MERCHANTS "ralphs shell" "ralphs shell").map
      (fun e => e.2.merchant_name) = some "Kroger"
  ∧ (resolve_merchant_query KNOWN_MERCHANTS "ralphs shell").2.merchant_name = "Shell"
  ∧ ("Kroger" : String) ≠ "Shell" :=
  ⟨by decide, by decide, by decide⟩

/-- Witness for C7 (amended), exercising the exact-key pass on the
query "walmart". -/
theorem C7_witness :
    resolve_merchant_query KNOWN_MERCHANTS "walmart" =
      (some "walmart",
       ⟨"Walmart", some "5331", ["general_merchandise", "groceries"],
        ["walmart supercenter", "walmart.com", "walmart store",
         "walmart neighborhood market"]⟩) :=
  (C7_stratified_passes KNOWN_MERCHANTS "walmart" "walmart" "walmart"
    (by decide) (by decide)).1
    ("walmart",
     ⟨"Walmart", some "5331", ["general_merchandise", "groceries"],
      ["walmart supercenter", "walmart.com", "walmart store",
       "walmart neighborhood market"]⟩)
    (by decide)

/- ## Claim C5: purity of resolve -/

/-- C5 (amended).  Calling `find_best_cards_for_query` again with the same
query, cards, rules and `max_results`, starting from the table state the
first call produced, returns the identical recommendation: the in-place
table mutation never changes the observable output. -/
theorem C5_idempotent_output (table : MerchantTable) (query : String)
    (all_cards : List CardProduct) (all_rules : List EarningRule)
    (max_results : Nat) (t1 : MerchantTable) (rec : ComputedRecommendation)
    (h : find_best_cards_for_query table query all_cards all_rules max_results =
      some (t1, rec)) :
    ∃ t2, find_best_cards_for_query t1 query all_cards all_rules max_results =
      some (t2, rec) := by
  cases hf : find_merchant table (pyStrip (pyLower query))
      (pyStrip (clean_noise (pyStrip (pyLower query)))) with
  | none =>
    have hres : resolve_merchant_query table query =
        (none, ⟨query, none, [normalize_category_name (pyStrip (pyLower query))], []⟩) := by
      simp [resolve_merchant_query, hf]
    have ht1 : t1 = table := by
      simp only [find_best_cards_for_query, hres] at h
      split at h
      · exact Option.noConfusion h
      · simp only [Option.some.injEq, Prod.mk.injEq] at h
        exact h.1.symm
    rw [ht1]
    exact ⟨t1, ht1 ▸ h⟩
  | some e =>
    obtain ⟨k, m⟩ := e
    have hres : resolve_merchant_query table query = (some k, m) := by
      simp [resolve_merchant_query, hf]
    cases hm : m.mcc with
    | none =>
      have ht1 : t1 = table := by
        simp only [find_best_cards_for_query, hres, hm] at h
        split at h
        · exact Option.noConfusion h
        · simp only [Option.some.injEq, Prod.mk.injEq] at h
          exact h.1.symm
      rw [ht1]
      exact ⟨t1, ht1 ▸ h⟩
    | some mc =>
      by_cases hemp : mc.isEmpty
      · have ht1 : t1 = table := by
          simp only [find_best_cards_for_query, hres, hm, hemp, if_true] at h
          split at h
          · exact Option.noConfusion h
          · simp only [Option.some.injEq, Prod.mk.injEq] at h
            exact h.1.symm
        rw [ht1]
        exact ⟨t1, ht1 ▸ h⟩
      · have hempf : mc.isEmpty = false := Bool.eq_false_iff.mpr hemp
        simp only [find_best_cards_for_query, hres, hm, hempf, Bool.false_eq_true,
          if_false] at h
        split at h
        · exact Option.noConfusion h
        case _ cs hc =>
          simp only [Option.some.injEq, Prod.mk.injEq] at h
          obtain ⟨ht1, hrec⟩ := h
          have hf2 : find_merchant t1 (pyStrip (pyLower query))
              (pyStrip (clean_noise (pyStrip (pyLower query)))) =
              some (k, { m with normalized_categories :=
                m.normalized_categories ++ get_categories_for_mcc mc }) := by
            rw [← ht1, find_merchant_update, hf]
            simp [upd_entry]
          have hres2 : resolve_merchant_query t1 query =
              (some k, { m with normalized_categories :=
                m.normalized_categories ++ get_categories_for_mcc mc }) := by
            simp [resolve_merchant_query, hf2]
          refine ⟨update_cats t1 k
            ((m.normalized_categories ++ get_categories_for_mcc mc) ++
              get_categories_for_mcc mc), ?_⟩
          simp only [find_best_cards_for_query, hres2, hm, hempf, Bool.false_eq_true,
            if_false]
          have hded : dedup_first
              ((m.normalized_categories ++ get_categories_for_mcc mc) ++
                get_categories_for_mcc mc) =
              dedup_first (m.normalized_categories ++ get_categories_for_mcc mc) :=
            dedup_first_append_of_subset _ _
              (fun x hx => List.mem_append.mpr (Or.inr hx))
          rw [hded]
          have hcol : collect_candidates
              ⟨m.merchant_name, some mc,
                m.normalized_categories ++ get_categories_for_mcc mc, m.aliases⟩
              (dedup_first (m.normalized_categories ++ get_categories_for_mcc mc))
              all_cards all_rules = some cs := by
            rw [collect_candidates_congr m
              ⟨m.merchant_name, some mc,
                m.normalized_categories ++ get_categories_for_mcc mc, m.aliases⟩
              _ _ rfl hm.symm]
            exact hc
          rw [hcol, ← hrec]



set_option maxRecDepth 40000 in
/-- Counterexample to C5 as stated: resolving "walmart" returns a table
different from the initial `KNOWN_MERCHANTS` — the walmart entry's
`normalized_categories` has been extended in place with the categories of
its MCC. -/
theorem C5_counterexample :
    (find_best_cards_for_query KNOWN_MERCHANTS "walmart" [] [] 5).map Prod.fst ≠
      some KNOWN_MERCHANTS := by
  decide

set_option maxRecDepth 40000 in
/-- Witness for C5 (amended) at the query "groceries" over an empty
catalog, whose resolution is synthetic and leaves the table unchanged. -/
theorem C5_witness :
    ∃ t2, find_best_cards_for_query KNOWN_MERCHANTS "groceries" [] [] 5 =
      some (t2, ⟨"groceries", ["groceries"], [],
        .no_specific_rewards "groceries"⟩) :=
  C5_idempotent_output KNOWN_MERCHANTS "groceries" [] [] 5 KNOWN_MERCHANTS
    ⟨"groceries", ["groceries"], [], .no_specific_rewards "groceries"⟩
    (by decide)

/- ## Claim C1: unit mismatch in point valuations -/

set_option maxRecDepth 40000 in
/-- C1.  Evaluating the code at the claim's own example: the global table
values `CHASE_UR` at `0.017`, so a 4x points grocery rule computes an
effective rate of `0.068`, not the claimed `6.8` cents per dollar; and
for the query "groceries" the capped 6 percent cashback card (blended to
3.5) is ranked above the points card, the reverse of the claimed order.
The stored magnitudes contradict the source's own units: the field is
named `base_point_value_cents`, the config comment says "cents per
point/mile", and the `DEFAULT` entry `0.01` is annotated "1 point = 1
cent". -/
theorem C1_unit_mismatch :
    compute_effective_rate points_rule (some chase_ur) = 17/250
  ∧ ¬ (compute_effective_rate points_rule (some chase_ur) = 34/5)
  ∧ (find_best_cards_for_query KNOWN_MERCHANTS "groceries"
      [points_card, cashback_card] [points_rule, cashback_rule] 5).map
      (fun tr => tr.2.candidate_cards.map
        (fun s => (s.card.id, s.effective_rate_cents_per_dollar))) =
      some [("cb1", 7/2), ("pts1", 17/250)] :=
  ⟨by decide, by decide, by decide⟩

/- ## Claim C6: business cards can never be included -/

/-- A business card with a matching grocery rule. -/
def biz_card : CardProduct :=
  ⟨"biz1", ⟨"Chase", "https://chase.com", none⟩, "Business Card", .visa,
   .cashback_percent, 0, 0, none, true, none, none⟩

/-- The grocery rule owned by the business card. -/
def biz_rule : EarningRule :=
  ⟨"biz1", "5 percent on groceries", ["groceries"], [], [], 5,
   .cashback_percent, [], none, false, false⟩

set_option maxRecDepth 40000 in
/-- C6.  Evaluating the `/api/recommend` pipeline at a catalog whose only
card is a business card with a matching rule: the candidate list is empty
both with `include_business = true` and with the default `false`, because
`engine.find_best_cards_for_query` skips business cards unconditionally,
so the endpoint's `include_business` flag can only filter further, never
include — contradicting the claim (and the endpoint's own parameter
description) that `true` includes business cards. -/
theorem C6_always_excluded :
    (get_recommendation KNOWN_MERCHANTS "groceries" 5 none none none true
      [biz_card] [biz_rule]).map (fun tr => tr.2.candidate_cards) = some []
  ∧ (get_recommendation KNOWN_MERCHANTS "groceries" 5 none none none false
      [biz_card] [biz_rule]).map (fun tr => tr.2.candidate_cards) = some [] :=
  ⟨by decide, by decide⟩

end ConcreteEvaluation
